import Mathlib

/-!
# Verification of the ad-vendor evaluation dashboard pipeline

Shallow embedding of the health-score computation pipeline of `src/app.py`:
weight normalization (lines 37-38), the join cascade building the `dyn`
table (lines 41-47), the dynamic health score (lines 49-55), the
filter-and-sort ranking (line 57), and the finance/budgets variance join
(lines 87-88).

Numbers are modelled by `ℚ`.  A pandas `NaN` arising from an unmatched
left join is modelled by `Option.none`; the Python `ZeroDivisionError`
raised by `w / sum(weights)` when the sum is `0.0` is modelled by the
normalization returning `none`.
-/

namespace AdVendor

/-- A row of `identity.csv`: VENDOR_ID, MATCH_RATE, OVERLAP, AVG_LATENCY_HOURS. -/
structure IdentityRecord where
  vendorId : String
  matchRate : ℚ
  overlap : ℚ
  avgLatencyHours : ℚ
  deriving DecidableEq, Repr

/-- A row of `delivery.csv`: VENDOR_ID, DT, CPM, VIEWABILITY, CTR. -/
structure DeliveryRecord where
  vendorId : String
  dt : String
  cpm : ℚ
  viewability : ℚ
  ctr : ℚ
  deriving DecidableEq, Repr

/-- A row of `finance.csv`: MONTH, VENDOR_ID, INVOICED_USD, DISPUTE_RATE. -/
structure FinanceRecord where
  month : String
  vendorId : String
  invoicedUSD : ℚ
  disputeRate : ℚ
  deriving DecidableEq, Repr

/-- A row of `budgets.csv`: MONTH, VENDOR_ID, BUDGET_ALLOCATED_USD. -/
structure BudgetRecord where
  month : String
  vendorId : String
  budgetAllocatedUSD : ℚ
  deriving DecidableEq, Repr

/-- The Health universe: the `VENDOR_ID` column of `health.csv`
(`health[["VENDOR_ID"]]`, the only part of that table the pipeline uses). -/
abbrev HealthUniverse := List String

/-- The five raw weights supplied by the sidebar sliders
(`w_match, w_overlap, w_cpm, w_view, w_disputes`, app.py lines 31-37). -/
structure Weights where
  wMatch : ℚ
  wOverlap : ℚ
  wCpm : ℚ
  wView : ℚ
  wDisputes : ℚ
  deriving DecidableEq, Repr

/-- `sum(weights)` for the five-element weight list of app.py line 37. -/
def Weights.total (w : Weights) : ℚ :=
  w.wMatch + w.wOverlap + w.wCpm + w.wView + w.wDisputes

/-- app.py line 38: `weights = [w/sum(weights) for w in weights]`.
Python float division raises `ZeroDivisionError` when `sum(weights)` is
exactly `0.0`; that fault is modelled by `none`. -/
def normalizeWeights (w : Weights) : Option Weights :=
  if w.total = 0 then none
  else some ⟨w.wMatch / w.total, w.wOverlap / w.total, w.wCpm / w.total,
             w.wView / w.total, w.wDisputes / w.total⟩

/-- One row of the `dyn` table after the merges of app.py lines 41-47:
the identity columns (filled with 0 when the health vendor has no
identity row) together with the per-vendor mean DISPUTE_RATE, CPM and
VIEWABILITY (each 0 when the vendor is absent from the source, via
`fillna(0)`). -/
structure DynRecord where
  vendorId : String
  matchRate : ℚ
  overlap : ℚ
  avgLatencyHours : ℚ
  disputeRate : ℚ
  cpm : ℚ
  viewability : ℚ
  deriving DecidableEq, Repr

/-- app.py line 41:
`identity.merge(health[["VENDOR_ID"]], on="VENDOR_ID", how="right").fillna(0)`.
Every health-universe vendor appears (right join, in health order); each
matching identity row yields one output row, and a vendor with no identity
row yields a single row whose identity fields are filled with 0. -/
def rightJoinIdentity (identity : List IdentityRecord) (health : HealthUniverse) :
    List (String × ℚ × ℚ × ℚ) :=
  health.flatMap fun v =>
    if (identity.filter fun r => r.vendorId == v) = [] then [(v, 0, 0, 0)]
    else (identity.filter fun r => r.vendorId == v).map
      fun r => (v, r.matchRate, r.overlap, r.avgLatencyHours)

/-- `finance.groupby("VENDOR_ID")["DISPUTE_RATE"].mean()` restricted to one
vendor: `none` when the vendor has no finance row (so the subsequent left
join leaves a NaN, filled with 0). -/
def meanDisputeRate (finance : List FinanceRecord) (v : String) : Option ℚ :=
  if (finance.filter fun r => r.vendorId == v) = [] then none
  else some (((finance.filter fun r => r.vendorId == v).map FinanceRecord.disputeRate).sum /
             (finance.filter fun r => r.vendorId == v).length)

/-- `delivery.groupby("VENDOR_ID")["CPM"].mean()` restricted to one vendor. -/
def meanCPM (delivery : List DeliveryRecord) (v : String) : Option ℚ :=
  if (delivery.filter fun r => r.vendorId == v) = [] then none
  else some (((delivery.filter fun r => r.vendorId == v).map DeliveryRecord.cpm).sum /
             (delivery.filter fun r => r.vendorId == v).length)

/-- `delivery.groupby("VENDOR_ID")["VIEWABILITY"].mean()` restricted to one
vendor. -/
def meanViewability (delivery : List DeliveryRecord) (v : String) : Option ℚ :=
  if (delivery.filter fun r => r.vendorId == v) = [] then none
  else some (((delivery.filter fun r => r.vendorId == v).map DeliveryRecord.viewability).sum /
             (delivery.filter fun r => r.vendorId == v).length)

/-- app.py lines 41-47: the full `dyn` join cascade.  Each row produced by
the right join of identity onto the health universe is extended with the
mean dispute rate, mean CPM and mean viewability of its vendor, each
defaulting to 0 (`fillna(0)`) when the vendor is absent from the source. -/
def buildDyn (identity : List IdentityRecord) (health : HealthUniverse)
    (finance : List FinanceRecord) (delivery : List DeliveryRecord) : List DynRecord :=
  (rightJoinIdentity identity health).map fun t =>
    { vendorId := t.1
      matchRate := t.2.1
      overlap := t.2.2.1
      avgLatencyHours := t.2.2.2
      disputeRate := (meanDisputeRate finance t.1).getD 0
      cpm := (meanCPM delivery t.1).getD 0
      viewability := (meanViewability delivery t.1).getD 0 }

/-- `clip(0,1)` of app.py line 55: clamp below at 0, above at 1. -/
def clip01 (x : ℚ) : ℚ := min (max x 0) 1

/-- The CPM term of the score formula, app.py line 52: `1 - CPM/15`. -/
def cpmTerm (r : DynRecord) : ℚ := 1 - r.cpm / 15

/-- The viewability term, app.py line 53: `(VIEWABILITY - 0.5)/0.5`. -/
def viewTerm (r : DynRecord) : ℚ := (r.viewability - 1/2) / (1/2)

/-- The dispute term, app.py line 54: `1 - DISPUTE_RATE`. -/
def disputeTerm (r : DynRecord) : ℚ := 1 - r.disputeRate

/-- app.py lines 49-55: `HEALTH_SCORE_DYNAMIC`, the weighted sum of the
five terms, clipped to [0,1] as a whole and scaled to 100. -/
def healthScoreDynamic (w : Weights) (r : DynRecord) : ℚ :=
  clip01 (w.wMatch * r.matchRate + w.wOverlap * r.overlap +
          w.wCpm * cpmTerm r + w.wView * viewTerm r +
          w.wDisputes * disputeTerm r) * 100

/-- A scored vendor row: the `VENDOR_ID` and `HEALTH_SCORE_DYNAMIC`
columns of `dyn` after line 55. -/
structure ScoredRecord where
  vendorId : String
  score : ℚ
  deriving DecidableEq, Repr

/-- Attaching the `HEALTH_SCORE_DYNAMIC` column to every `dyn` row
(app.py lines 49-55 operate on the whole frame). -/
def scoreAll (w : Weights) (dyn : List DynRecord) : List ScoredRecord :=
  dyn.map fun r => ⟨r.vendorId, healthScoreDynamic w r⟩

/-- Insert a scored row into a list sorted by score descending, keeping it
sorted: the row goes in front of the first strictly smaller score. -/
def insertByScoreDesc (x : ScoredRecord) : List ScoredRecord → List ScoredRecord
  | [] => [x]
  | y :: ys => if y.score < x.score then x :: y :: ys else y :: insertByScoreDesc x ys

/-- Sort scored rows by score descending
(`sort_values("HEALTH_SCORE_DYNAMIC", ascending=False)`, app.py line 57). -/
def sortByScoreDesc : List ScoredRecord → List ScoredRecord
  | [] => []
  | x :: xs => insertByScoreDesc x (sortByScoreDesc xs)

/-- app.py line 57: keep only the selected vendors
(`dyn["VENDOR_ID"].isin(sel_vendors)`) and sort by score descending. -/
def rankedOutput (sel : List String) (scored : List ScoredRecord) : List ScoredRecord :=
  sortByScoreDesc (scored.filter fun r => sel.contains r.vendorId)

/-- The health-score pipeline end to end: normalize the raw weights
(a fault there aborts the whole recomputation, modelled by `none`), build
the `dyn` table, score it, filter to the selection and sort. -/
def computeDashboard (identity : List IdentityRecord) (health : HealthUniverse)
    (finance : List FinanceRecord) (delivery : List DeliveryRecord)
    (sel : List String) (raw : Weights) : Option (List ScoredRecord) :=
  match normalizeWeights raw with
  | none => none
  | some w => some (rankedOutput sel (scoreAll w (buildDyn identity health finance delivery)))

/-- A row of `finance_summary` (app.py lines 87-88):
`finance.merge(budgets, on=["MONTH","VENDOR_ID"], how="left")` with the
budget column `none` (NaN) when the finance row has no matching budget
row — the code applies no `fillna` to this frame. -/
structure FinanceSummaryRow where
  month : String
  vendorId : String
  budgetAllocatedUSD : Option ℚ
  invoicedUSD : ℚ
  disputeRate : ℚ
  deriving DecidableEq, Repr

/-- app.py line 87: the left join of finance with budgets on
(MONTH, VENDOR_ID).  Each budget row matching a finance row yields one
output row; an unmatched finance row yields one row with `none` (NaN)
budget. -/
def financeSummary (finance : List FinanceRecord) (budgets : List BudgetRecord) :
    List FinanceSummaryRow :=
  finance.flatMap fun f =>
    if (budgets.filter fun b => b.month == f.month && b.vendorId == f.vendorId) = [] then
      [⟨f.month, f.vendorId, none, f.invoicedUSD, f.disputeRate⟩]
    else (budgets.filter fun b => b.month == f.month && b.vendorId == f.vendorId).map
      fun b => ⟨f.month, f.vendorId, some b.budgetAllocatedUSD, f.invoicedUSD, f.disputeRate⟩

/-- app.py line 88:
`VARIANCE_USD = INVOICED_USD - BUDGET_ALLOCATED_USD`.  Subtracting a NaN
budget yields NaN, i.e. `none`. -/
def varianceUSD (r : FinanceSummaryRow) : Option ℚ :=
  r.budgetAllocatedUSD.map fun b => r.invoicedUSD - b

/-- The default slider weights of app.py lines 31-35:
0.30 / 0.15 / 0.25 / 0.20 / 0.10. -/
def defaultWeights : Weights := ⟨30/100, 15/100, 25/100, 20/100, 10/100⟩

/-- The worked example's composite record: MatchRate 0.8, Overlap 0.5,
latency 0 (unused by the score), DisputeRate 0.05, CPM 10,
Viewability 0.7. -/
def exampleRecord : DynRecord := ⟨"V1", 8/10, 5/10, 0, 5/100, 10, 7/10⟩

section Lemmas

/-- `clip01` never goes below 0. -/
theorem clip01_nonneg (x : ℚ) : 0 ≤ clip01 x := by
  rw [clip01]
  exact le_min (le_max_right x 0) zero_le_one

/-- `clip01` never exceeds 1. -/
theorem clip01_le_one (x : ℚ) : clip01 x ≤ 1 := min_le_right _ _

/-- Every row of the `dyn` table carries its vendor's (defaulted) mean
metrics, as assembled by `buildDyn`. -/
theorem buildDyn_fields {identity : List IdentityRecord} {health : HealthUniverse}
    {finance : List FinanceRecord} {delivery : List DeliveryRecord} {r : DynRecord}
    (hr : r ∈ buildDyn identity health finance delivery) :
    r.disputeRate = (meanDisputeRate finance r.vendorId).getD 0 ∧
    r.cpm = (meanCPM delivery r.vendorId).getD 0 ∧
    r.viewability = (meanViewability delivery r.vendorId).getD 0 := by
  rw [buildDyn, List.mem_map] at hr
  obtain ⟨t, _, rfl⟩ := hr
  exact ⟨rfl, rfl, rfl⟩

/-- A vendor with no delivery rows has no mean CPM (NaN before fillna). -/
theorem meanCPM_eq_none {delivery : List DeliveryRecord} {v : String}
    (h : ∀ d ∈ delivery, d.vendorId ≠ v) : meanCPM delivery v = none := by
  rw [meanCPM, if_pos]
  exact List.filter_eq_nil_iff.mpr fun d hd => by simpa using h d hd

/-- A vendor with no delivery rows has no mean viewability. -/
theorem meanViewability_eq_none {delivery : List DeliveryRecord} {v : String}
    (h : ∀ d ∈ delivery, d.vendorId ≠ v) : meanViewability delivery v = none := by
  rw [meanViewability, if_pos]
  exact List.filter_eq_nil_iff.mpr fun d hd => by simpa using h d hd

/-- A vendor with no finance rows has no mean dispute rate. -/
theorem meanDisputeRate_eq_none {finance : List FinanceRecord} {v : String}
    (h : ∀ f ∈ finance, f.vendorId ≠ v) : meanDisputeRate finance v = none := by
  rw [meanDisputeRate, if_pos]
  exact List.filter_eq_nil_iff.mpr fun f hf => by simpa using h f hf

/-- Membership in an insertion step: the inserted row joins the list. -/
theorem mem_insertByScoreDesc {x y : ScoredRecord} {l : List ScoredRecord} :
    y ∈ insertByScoreDesc x l ↔ y = x ∨ y ∈ l := by
  induction l with
  | nil => simp [insertByScoreDesc]
  | cons z zs ih =>
    rw [insertByScoreDesc]
    by_cases h : z.score < x.score
    · rw [if_pos h]
      simp [List.mem_cons]
    · rw [if_neg h]
      simp only [List.mem_cons, ih]
      tauto

/-- Sorting by score does not change which rows appear. -/
theorem mem_sortByScoreDesc {y : ScoredRecord} {l : List ScoredRecord} :
    y ∈ sortByScoreDesc l ↔ y ∈ l := by
  induction l with
  | nil => simp [sortByScoreDesc]
  | cons x xs ih =>
    rw [sortByScoreDesc, mem_insertByScoreDesc]
    simp [ih]

/-- Inserting into a descending-sorted list keeps it descending-sorted. -/
theorem pairwise_insertByScoreDesc {x : ScoredRecord} {l : List ScoredRecord}
    (hl : l.Pairwise fun a b => b.score ≤ a.score) :
    (insertByScoreDesc x l).Pairwise fun a b => b.score ≤ a.score := by
  induction l with
  | nil => simp [insertByScoreDesc]
  | cons y ys ih =>
    rw [List.pairwise_cons] at hl
    obtain ⟨hy, hys⟩ := hl
    rw [insertByScoreDesc]
    by_cases h : y.score < x.score
    · rw [if_pos h]
      refine List.Pairwise.cons ?_ (List.Pairwise.cons hy hys)
      intro b hb
      rcases List.mem_cons.mp hb with rfl | hb
      · exact le_of_lt h
      · exact le_trans (hy b hb) (le_of_lt h)
    · rw [if_neg h]
      refine List.Pairwise.cons ?_ (ih hys)
      intro b hb
      rcases mem_insertByScoreDesc.mp hb with rfl | hb
      · exact le_of_not_lt h
      · exact hy b hb

/-- `sortByScoreDesc` always produces a descending-sorted list. -/
theorem pairwise_sortByScoreDesc (l : List ScoredRecord) :
    (sortByScoreDesc l).Pairwise fun a b => b.score ≤ a.score := by
  induction l with
  | nil => simp [sortByScoreDesc]
  | cons x xs ih => exact pairwise_insertByScoreDesc ih

/-- A vendor id occurs among the first components of the right join
exactly when it is in the health universe. -/
theorem exists_mem_rightJoinIdentity {identity : List IdentityRecord}
    {health : HealthUniverse} {v : String} :
    (∃ t ∈ rightJoinIdentity identity health, t.1 = v) ↔ v ∈ health := by
  constructor
  · rintro ⟨t, ht, rfl⟩
    rw [rightJoinIdentity, List.mem_flatMap] at ht
    obtain ⟨v0, hv0, hblock⟩ := ht
    by_cases hempty : (identity.filter fun r => r.vendorId == v0) = []
    · rw [if_pos hempty, List.mem_singleton] at hblock
      rw [hblock]
      exact hv0
    · rw [if_neg hempty, List.mem_map] at hblock
      obtain ⟨r, _, hr⟩ := hblock
      rw [← hr]
      exact hv0
  · intro hv
    by_cases hempty : (identity.filter fun r => r.vendorId == v) = []
    · refine ⟨(v, 0, 0, 0), ?_, rfl⟩
      rw [rightJoinIdentity, List.mem_flatMap]
      exact ⟨v, hv, by rw [if_pos hempty]; exact List.mem_singleton_self _⟩
    · obtain ⟨r, hr⟩ := List.exists_mem_of_ne_nil _ hempty
      refine ⟨(v, r.matchRate, r.overlap, r.avgLatencyHours), ?_, rfl⟩
      rw [rightJoinIdentity, List.mem_flatMap]
      refine ⟨v, hv, ?_⟩
      rw [if_neg hempty, List.mem_map]
      exact ⟨r, hr, rfl⟩

/-- A vendor id occurs among the `dyn` rows exactly when it is in the
health universe. -/
theorem exists_mem_buildDyn {identity : List IdentityRecord} {health : HealthUniverse}
    {finance : List FinanceRecord} {delivery : List DeliveryRecord} {v : String} :
    (∃ r ∈ buildDyn identity health finance delivery, r.vendorId = v) ↔ v ∈ health := by
  rw [← @exists_mem_rightJoinIdentity identity health v]
  constructor
  · rintro ⟨r, hr, rfl⟩
    rw [buildDyn, List.mem_map] at hr
    obtain ⟨t, ht, rfl⟩ := hr
    exact ⟨t, ht, rfl⟩
  · rintro ⟨t, ht, rfl⟩
    refine ⟨{ vendorId := t.1, matchRate := t.2.1, overlap := t.2.2.1,
              avgLatencyHours := t.2.2.2,
              disputeRate := (meanDisputeRate finance t.1).getD 0,
              cpm := (meanCPM delivery t.1).getD 0,
              viewability := (meanViewability delivery t.1).getD 0 }, ?_, rfl⟩
    rw [buildDyn, List.mem_map]
    exact ⟨t, ht, rfl⟩

end Lemmas

section Claims

/-- C1: the claim says an all-zero weight vector must not raise a fault
and must yield a defined fallback score.  The code instead evaluates
`w / sum(weights)` with `sum(weights) = 0.0` (app.py line 38), raising
`ZeroDivisionError`: the normalization yields no weights and the whole
recomputation aborts with no score for any vendor, whatever the data and
selection. -/
theorem C1_degenerate_weights_fault (identity : List IdentityRecord)
    (health : HealthUniverse) (finance : List FinanceRecord)
    (delivery : List DeliveryRecord) (sel : List String) :
    normalizeWeights ⟨0, 0, 0, 0, 0⟩ = none ∧
    computeDashboard identity health finance delivery sel ⟨0, 0, 0, 0, 0⟩ = none := by
  have h : normalizeWeights ⟨0, 0, 0, 0, 0⟩ = none := by
    simp [normalizeWeights, Weights.total]
  refine ⟨h, ?_⟩
  rw [computeDashboard, h]

/-- C5: for every weight vector and every vendor record the dynamic
health score lies in [0, 100], because the weighted sum is clipped to
[0,1] as a whole and then scaled by 100. -/
theorem C5_healthScore_in_range (w : Weights) (r : DynRecord) :
    0 ≤ healthScoreDynamic w r ∧ healthScoreDynamic w r ≤ 100 := by
  rw [healthScoreDynamic]
  constructor
  · exact mul_nonneg (clip01_nonneg _) (by norm_num)
  · exact le_trans (mul_le_mul_of_nonneg_right (clip01_le_one _) (by norm_num))
      (by norm_num)

/-- C6: every raw weight vector with components in [0,1] and strictly
positive sum normalizes without fault to five weights summing exactly
to 1. -/
theorem C6_normalized_weights_sum_one (w : Weights)
    (_hrange : 0 ≤ w.wMatch ∧ w.wMatch ≤ 1 ∧ 0 ≤ w.wOverlap ∧ w.wOverlap ≤ 1 ∧
              0 ≤ w.wCpm ∧ w.wCpm ≤ 1 ∧ 0 ≤ w.wView ∧ w.wView ≤ 1 ∧
              0 ≤ w.wDisputes ∧ w.wDisputes ≤ 1)
    (hpos : 0 < w.total) :
    ∃ nw, normalizeWeights w = some nw ∧ nw.total = 1 := by
  have hne : w.total ≠ 0 := ne_of_gt hpos
  refine ⟨⟨w.wMatch / w.total, w.wOverlap / w.total, w.wCpm / w.total,
           w.wView / w.total, w.wDisputes / w.total⟩, ?_, ?_⟩
  · rw [normalizeWeights, if_neg hne]
  · show w.wMatch / w.total + w.wOverlap / w.total + w.wCpm / w.total +
        w.wView / w.total + w.wDisputes / w.total = 1
    rw [div_add_div_same, div_add_div_same, div_add_div_same, div_add_div_same]
    exact div_self hne

/-- Witness for C6: the raw weight vector (1, 0, 0, 0, 0) is in range,
has positive sum, and normalizes to weights summing to 1. -/
theorem C6_normalized_weights_sum_one_witness :
    ∃ nw, normalizeWeights ⟨1, 0, 0, 0, 0⟩ = some nw ∧ nw.total = 1 :=
  C6_normalized_weights_sum_one ⟨1, 0, 0, 0, 0⟩ (by simp) (by simp [Weights.total])

/-- C9: the worked example.  The default weights already sum to 1, so
normalization returns them unchanged, and the example record
(MatchRate 0.8, Overlap 0.5, CPM 10, Viewability 0.7, DisputeRate 0.05)
scores exactly 172/3 = 57.33…, i.e. ≈ 57.3 as documented. -/
theorem C9_example_score :
    normalizeWeights defaultWeights = some ⟨3/10, 3/20, 1/4, 1/5, 1/10⟩ ∧
    healthScoreDynamic ⟨3/10, 3/20, 1/4, 1/5, 1/10⟩ exampleRecord = 172/3 ∧
    (573:ℚ)/10 ≤ 172/3 ∧ (172:ℚ)/3 ≤ 574/10 := by
  refine ⟨?_, ?_, by norm_num, by norm_num⟩
  · norm_num [normalizeWeights, defaultWeights, Weights.total]
  · norm_num [healthScoreDynamic, exampleRecord, clip01, cpmTerm, viewTerm,
              disputeTerm, min_def, max_def]

/-- C2 as stated is false on the code: app.py lines 87-88 apply no
`fillna` to `finance_summary`, so a finance row with no matching budget
row keeps a NaN budget and its VARIANCE_USD is NaN, not the invoiced
amount.  Concretely, invoiced 1200 with an empty budgets table yields
variance NaN rather than 1200. -/
theorem C2_counterexample :
    financeSummary [⟨"2024-01", "V1", 1200, 1/20⟩] [] =
      [⟨"2024-01", "V1", none, 1200, 1/20⟩] ∧
    varianceUSD ⟨"2024-01", "V1", none, 1200, 1/20⟩ = none ∧
    (none : Option ℚ) ≠ some 1200 := by
  refine ⟨?_, rfl, by simp⟩
  simp [financeSummary]

/-- C2 amended: for every finance row whose (Month, VendorId) key has no
matching budgets row, the summary contains that row with an undefined
(NaN) budget, and every summary row carrying that key has an undefined
(NaN) variance — not a variance equal to the invoiced amount. -/
theorem C2_unmatched_budget_variance_nan (finance : List FinanceRecord)
    (budgets : List BudgetRecord) (f : FinanceRecord) (hf : f ∈ finance)
    (hnb : ∀ b ∈ budgets, ¬(b.month = f.month ∧ b.vendorId = f.vendorId)) :
    (⟨f.month, f.vendorId, none, f.invoicedUSD, f.disputeRate⟩ : FinanceSummaryRow) ∈
      financeSummary finance budgets ∧
    ∀ r ∈ financeSummary finance budgets,
      r.month = f.month → r.vendorId = f.vendorId → varianceUSD r = none := by
  have hfil : (budgets.filter fun b => b.month == f.month && b.vendorId == f.vendorId) = [] := by
    refine List.filter_eq_nil_iff.mpr fun b hb => ?_
    simpa using hnb b hb
  constructor
  · rw [financeSummary, List.mem_flatMap]
    exact ⟨f, hf, by rw [if_pos hfil]; exact List.mem_singleton_self _⟩
  · intro r hr hm hv
    rw [financeSummary, List.mem_flatMap] at hr
    obtain ⟨g, hg, hrow⟩ := hr
    by_cases hemp : (budgets.filter fun b => b.month == g.month && b.vendorId == g.vendorId) = []
    · rw [if_pos hemp, List.mem_singleton] at hrow
      rw [hrow]
      rfl
    · rw [if_neg hemp, List.mem_map] at hrow
      obtain ⟨b, hb, hrow⟩ := hrow
      obtain ⟨hbmem, hcond⟩ := List.mem_filter.mp hb
      simp only [Bool.and_eq_true, beq_iff_eq] at hcond
      subst hrow
      exact absurd ⟨hcond.1.trans hm, hcond.2.trans hv⟩ (hnb b hbmem)

/-- Witness for the amended C2 at a concrete unmatched finance row. -/
theorem C2_unmatched_budget_variance_nan_witness :
    ((⟨"2024-02", "V9", 500, 0⟩ : FinanceRecord) ∈
      ([⟨"2024-02", "V9", 500, 0⟩] : List FinanceRecord)) ∧
    ((⟨"2024-02", "V9", none, 500, 0⟩ : FinanceSummaryRow) ∈
      financeSummary [⟨"2024-02", "V9", 500, 0⟩] [] ∧
    ∀ r ∈ financeSummary [⟨"2024-02", "V9", 500, 0⟩] [],
      r.month = "2024-02" → r.vendorId = "V9" → varianceUSD r = none) :=
  ⟨List.mem_singleton_self _,
   C2_unmatched_budget_variance_nan [⟨"2024-02", "V9", 500, 0⟩] []
     ⟨"2024-02", "V9", 500, 0⟩ (List.mem_singleton_self _)
     fun b hb => absurd hb (List.not_mem_nil b)⟩

/-- C4: for every input row-set, selection, and weight vector, the vendor
ids of the ranked output are exactly the selection intersected with the
health universe. -/
theorem C4_ranked_vendor_set (identity : List IdentityRecord) (health : HealthUniverse)
    (finance : List FinanceRecord) (delivery : List DeliveryRecord)
    (sel : List String) (w : Weights) (v : String) :
    v ∈ (rankedOutput sel (scoreAll w (buildDyn identity health finance delivery))).map
        ScoredRecord.vendorId ↔ v ∈ sel ∧ v ∈ health := by
  rw [List.mem_map]
  constructor
  · rintro ⟨r, hr, rfl⟩
    rw [rankedOutput, mem_sortByScoreDesc, List.mem_filter] at hr
    obtain ⟨hmem, hsel⟩ := hr
    refine ⟨by simpa using hsel, ?_⟩
    rw [scoreAll, List.mem_map] at hmem
    obtain ⟨d, hd, rfl⟩ := hmem
    exact exists_mem_buildDyn.mp ⟨d, hd, rfl⟩
  · rintro ⟨hsel, hhealth⟩
    obtain ⟨d, hd, hdv⟩ := exists_mem_buildDyn.mpr hhealth
    refine ⟨⟨d.vendorId, healthScoreDynamic w d⟩, ?_, hdv⟩
    rw [rankedOutput, mem_sortByScoreDesc, List.mem_filter]
    refine ⟨?_, ?_⟩
    · rw [scoreAll, List.mem_map]
      exact ⟨d, hd, rfl⟩
    · show sel.contains d.vendorId = true
      rw [hdv]
      simpa using hsel

/-- C7: the ranked output is sorted by score descending — whenever
record A appears before record B, A's score is at least B's. -/
theorem C7_ranked_sorted_descending (identity : List IdentityRecord)
    (health : HealthUniverse) (finance : List FinanceRecord)
    (delivery : List DeliveryRecord) (sel : List String) (w : Weights) :
    (rankedOutput sel (scoreAll w (buildDyn identity health finance delivery))).Pairwise
      fun a b => b.score ≤ a.score :=
  pairwise_sortByScoreDesc _

/-- C8: a health-universe vendor absent from the delivery row-set gets
CPM 0 after the joins, making its CPM score term maximal (1); a vendor
absent from the finance row-set gets DisputeRate 0, making its dispute
score term maximal (1). -/
theorem C8_missing_metrics_max_benefit (identity : List IdentityRecord)
    (health : HealthUniverse) (finance : List FinanceRecord)
    (delivery : List DeliveryRecord) (v : String) (_hv : v ∈ health) :
    ((∀ d ∈ delivery, d.vendorId ≠ v) →
      ∀ r ∈ buildDyn identity health finance delivery, r.vendorId = v →
        r.cpm = 0 ∧ cpmTerm r = 1) ∧
    ((∀ f ∈ finance, f.vendorId ≠ v) →
      ∀ r ∈ buildDyn identity health finance delivery, r.vendorId = v →
        r.disputeRate = 0 ∧ disputeTerm r = 1) := by
  constructor
  · intro hd r hr hrv
    have hcpm : r.cpm = 0 := by
      have h := (buildDyn_fields hr).2.1
      rw [hrv] at h
      rw [h, meanCPM_eq_none hd]
      rfl
    exact ⟨hcpm, by rw [cpmTerm, hcpm]; norm_num⟩
  · intro hf r hr hrv
    have hdr : r.disputeRate = 0 := by
      have h := (buildDyn_fields hr).1
      rw [hrv] at h
      rw [h, meanDisputeRate_eq_none hf]
      rfl
    exact ⟨hdr, by rw [disputeTerm, hdr]; norm_num⟩

/-- Witness for C8: vendor V1 is in a one-vendor health universe with
empty delivery and finance row-sets. -/
theorem C8_missing_metrics_max_benefit_witness :
    ("V1" ∈ (["V1"] : HealthUniverse)) ∧
    (((∀ d ∈ ([] : List DeliveryRecord), d.vendorId ≠ "V1") →
      ∀ r ∈ buildDyn [] ["V1"] [] [], r.vendorId = "V1" →
        r.cpm = 0 ∧ cpmTerm r = 1) ∧
    ((∀ f ∈ ([] : List FinanceRecord), f.vendorId ≠ "V1") →
      ∀ r ∈ buildDyn [] ["V1"] [] [], r.vendorId = "V1" →
        r.disputeRate = 0 ∧ disputeTerm r = 1)) :=
  ⟨List.mem_singleton_self _,
   C8_missing_metrics_max_benefit [] ["V1"] [] [] "V1" (List.mem_singleton_self _)⟩

/-- C10: a health-universe vendor absent from the delivery row-set gets
Viewability 0 after the joins, so its viewability score term is the
maximal penalty (−1), even though its CPM term is simultaneously the
maximal benefit (1). -/
theorem C10_missing_delivery_viewability_penalty (identity : List IdentityRecord)
    (health : HealthUniverse) (finance : List FinanceRecord)
    (delivery : List DeliveryRecord) (v : String) (_hv : v ∈ health)
    (hd : ∀ d ∈ delivery, d.vendorId ≠ v) :
    ∀ r ∈ buildDyn identity health finance delivery, r.vendorId = v →
      r.viewability = 0 ∧ viewTerm r = -1 ∧ cpmTerm r = 1 := by
  intro r hr hrv
  have hview : r.viewability = 0 := by
    have h := (buildDyn_fields hr).2.2
    rw [hrv] at h
    rw [h, meanViewability_eq_none hd]
    rfl
  have hcpm : r.cpm = 0 := by
    have h := (buildDyn_fields hr).2.1
    rw [hrv] at h
    rw [h, meanCPM_eq_none hd]
    rfl
  refine ⟨hview, ?_, ?_⟩
  · rw [viewTerm, hview]
    norm_num
  · rw [cpmTerm, hcpm]
    norm_num

/-- Witness for C10: vendor V2 is in a one-vendor health universe with an
empty delivery row-set. -/
theorem C10_missing_delivery_viewability_penalty_witness :
    ("V2" ∈ (["V2"] : HealthUniverse)) ∧
    (∀ d ∈ ([] : List DeliveryRecord), d.vendorId ≠ "V2") ∧
    (∀ r ∈ buildDyn [] ["V2"] [] [], r.vendorId = "V2" →
      r.viewability = 0 ∧ viewTerm r = -1 ∧ cpmTerm r = 1) :=
  ⟨List.mem_singleton_self _, fun d hd => absurd hd (List.not_mem_nil d),
   C10_missing_delivery_viewability_penalty [] ["V2"] [] [] "V2"
     (List.mem_singleton_self _) fun d hd => absurd hd (List.not_mem_nil d)⟩

end Claims

end AdVendor
